import Mathlib

/-!
# Siren API: collection repository facade and RPC gateway

A shallow embedding of `internal/repository/collection.go`,
`internal/repository/rpc/ecr721.go` and `internal/repository/rpc/pay_token.go`.

Conventions of the embedding.

* A Go result pair `(v, err)` is a Lean pair `v × Option GoError`; `none` is the
  `nil` error.  The pair is kept as a pair (not a sum) wherever the Go code
  receives one from a collaborator, so that the way the code inspects the two
  halves is visible.
* A nilable pointer (`*common.Address`, `*big.Int`) that the code tests against
  `nil` is an `Option`.
* Calls that leave the process (node RPC, contract probes, ABI packing) are
  functions of their arguments, collected in `Opera` and `Proxy`; every modelled
  function also returns the list of such calls it made, in program order.
* Logging statements have no effect on results and are left out.
-/

namespace Siren

/-! ## Data model -/

/-- One octet. -/
abbrev Byte := Fin 256

/-- Go `[]byte`. -/
abbrev Bytes := List Byte

/-- Text carried in a Go `string` (token URIs and their templates). -/
abbrev Text := List Char

/-- The type `common.Address`: an array of exactly 20 bytes. -/
abbrev Address := { l : List Byte // l.length = 20 }

/-- Method `Address.Bytes()`: the 20 bytes of the address as a slice. -/
def Address.Bytes (a : Address) : Bytes := a.val

/-- The zero value `common.Address{}`. -/
def Address.zero : Address := ⟨List.replicate 20 0, by decide⟩

/-- Go `bytes.Equal`: two slices are equal when they hold the same bytes. -/
def bytesEqual (a b : Bytes) : Bool := decide (a = b)

/-- A non-nil Go `error`, identified by the text `Error()` returns. -/
structure GoError where
  msg : String
deriving DecidableEq, Repr

/-- Go `fmt.Errorf(format, arg)` for a format that is a fixed text followed by
one `%s` verb: the fixed text followed by the argument. -/
def Errorf (fixed : String) (arg : String) : GoError := ⟨fixed ++ arg⟩

/-- The type `ethereum.CallMsg`, restricted to the fields the code sets. -/
structure CallMsg where
  From : Address
  To : Option Address
  Data : Bytes
  Value : Option Int
deriving DecidableEq

/-- The type `types.PayToken`. -/
structure PayToken where
  Contract : Address
  Name : String
  Symbol : String
  Decimals : Int
  UnitPrice : Int
deriving DecidableEq

/-- The zero value of `types.PayToken`. -/
def PayToken.zero : PayToken := ⟨Address.zero, "", "", 0, 0⟩

/-- A call that leaves the modelled code, as recorded in program order. -/
inductive Event where
  | IsErc721Contract (adr : Address)
  | IsErc1155Contract (adr : Address)
  | CollectionOwner (contract : Address)
  | NewErc721 (contract : Address)
  | Erc721IsApprovedForAll (contract owner operator : Address)
  | PackMint (user : Address) (tokenUrl : Text)
  | PackTokenURI (tokenId : Int)
  | UnpackTokenURI (data : Bytes)
  | CallContract (msg : CallMsg)
  | EstimateGas (msg : CallMsg)
  | NewErc20 (token : Address)
  | Erc20Name (token : Address)
  | Erc20Symbol (token : Address)
  | Erc20Decimals (token : Address)
  | GetPayTokenPrice (token : Address)
deriving DecidableEq

/-- The collaborators of the RPC gateway `Opera`: the node client `o.ftm`, the
ABI encoders and decoders, the generated contract bindings, and the library
functions on addresses.  Each is a function of its arguments. -/
structure Opera where
  /-- Method `common.Address.String()`. -/
  AddressString : Address → String
  /-- Function `common.HexToAddress`. -/
  HexToAddress : String → Address
  /-- Method `o.CollectionOwner` (defined outside the embedded files). -/
  CollectionOwner : Address → Option Address
  /-- Constructor `contracts.NewErc721(adr, o.ftm)`: its error result. -/
  NewErc721 : Address → Option GoError
  /-- Binding call `erc.IsApprovedForAll(nil, owner, operator)` on the binding of a contract. -/
  Erc721IsApprovedForAllCall : Address → Address → Address → Bool × Option GoError
  /-- Encoder `o.abiFantom721.Pack("mint", user, tokenUrl)`. -/
  PackMint : Address → Text → Bytes × Option GoError
  /-- Encoder `o.Erc721Abi().Pack("tokenURI", tokenId)`. -/
  PackTokenURI : Int → Bytes × Option GoError
  /-- Decoder `o.abiFantom721.Unpack("tokenURI", data)` followed by the
  conversion of its single output to a string. -/
  UnpackTokenURI : Bytes → Except GoError Text
  /-- Node call `o.ftm.CallContract(ctx, msg, nil)`. -/
  CallContract : CallMsg → Bytes × Option GoError
  /-- Node call `o.ftm.EstimateGas(ctx, msg)`. -/
  EstimateGas : CallMsg → Nat × Option GoError
  /-- Constructor `contracts.NewErc20(adr, o.ftm)`: its error result. -/
  NewErc20 : Address → Option GoError
  /-- Binding call `token.Name(nil)`. -/
  Erc20Name : Address → String × Option GoError
  /-- Binding call `token.Symbol(nil)`. -/
  Erc20Symbol : Address → String × Option GoError
  /-- Binding call `token.Decimals(nil)`, a `uint8`. -/
  Erc20Decimals : Address → Byte × Option GoError
  /-- Method `o.GetPayTokenPrice(&address, nil)` (defined outside the embedded files). -/
  GetPayTokenPrice : Address → Int × Option GoError

/-- The repository facade `Proxy`: its RPC gateway, the two contract probes
(methods of `Proxy` defined outside the embedded files) and the two
contract-type constants of package `types`. -/
structure Proxy where
  rpc : Opera
  IsErc721Contract : Address → Bool
  IsErc1155Contract : Address → Bool
  ContractTypeERC721 : String
  ContractTypeERC1155 : String

/-! ## `internal/repository/rpc/ecr721.go`: approval check -/

/-- Method `Opera.Erc721IsApprovedForAll`. -/
def Opera.Erc721IsApprovedForAll (o : Opera) (contract owner operator : Address) :
    (Bool × Option GoError) × List Event :=
  match o.NewErc721 contract with
  | some err => ((false, some err), [Event.NewErc721 contract])
  | none =>
    (o.Erc721IsApprovedForAllCall contract owner operator,
      [Event.NewErc721 contract, Event.Erc721IsApprovedForAll contract owner operator])

/-! ## `internal/repository/rpc/ecr721.go`: fee resolution and mint eligibility -/

/-- The constant `defaultMintingTestTokenUrl`. -/
def defaultMintingTestTokenUrl : Text :=
  "https://minter.artion.io/default/access/minter/estimation.json".toList

/-- The variable `defaultMintingTestFee`, `hexutil.MustDecodeBig("0x8AC7230489E80000")`. -/
def defaultMintingTestFee : Int := 0x8AC7230489E80000

/-- Go `new(big.Int).SetBytes(data)`: the bytes read as a big-endian unsigned integer. -/
def SetBytes (data : Bytes) : Nat := data.foldl (fun acc b => acc * 256 + b.val) 0

/-- The call message `MustPlatformFee` sends: selector `common.Hex2Bytes("26232a2e")`
from the zero address to the contract. -/
def platformFeeMsg (contract : Address) : CallMsg :=
  { From := Address.zero, To := some contract, Data := [0x26, 0x23, 0x2a, 0x2e], Value := none }

/-- Method `Opera.MustPlatformFee`. -/
def Opera.MustPlatformFee (o : Opera) (contract : Address) : Int × List Event :=
  match o.CallContract (platformFeeMsg contract) with
  | (_, some _) => (defaultMintingTestFee, [Event.CallContract (platformFeeMsg contract)])
  | (data, none) =>
    if data.length ≠ 32 then
      (defaultMintingTestFee, [Event.CallContract (platformFeeMsg contract)])
    else
      ((SetBytes data : Int), [Event.CallContract (platformFeeMsg contract)])

/-- The fee step of `CanMintErc721`: `if fee == nil { fee = o.MustPlatformFee(contract) }`. -/
def Opera.resolveFee (o : Opera) (contract : Address) (fee : Option Int) : Int × List Event :=
  match fee with
  | none => o.MustPlatformFee contract
  | some f => (f, [])

/-- The call message `CanMintErc721` hands to gas estimation. -/
def mintMsg (contract user : Address) (data : Bytes) (fee : Int) : CallMsg :=
  { From := user, To := some contract, Data := data, Value := some fee }

/-- Method `Opera.CanMintErc721`. -/
def Opera.CanMintErc721 (o : Opera) (contract user : Address) (fee : Option Int) :
    (Bool × Option GoError) × List Event :=
  match o.PackMint user defaultMintingTestTokenUrl with
  | (_, some err) => ((false, some err), [Event.PackMint user defaultMintingTestTokenUrl])
  | (data, none) =>
    let resolved := o.resolveFee contract fee
    let msg := mintMsg contract user data resolved.1
    match o.EstimateGas msg with
    | (_, some _) =>
      ((false, none),
        [Event.PackMint user defaultMintingTestTokenUrl] ++ resolved.2 ++ [Event.EstimateGas msg])
    | (_, none) =>
      ((true, none),
        [Event.PackMint user defaultMintingTestTokenUrl] ++ resolved.2 ++ [Event.EstimateGas msg])

/-! ## `internal/repository/rpc/ecr721.go`: token URI -/

/-- The literal `"{id}"`. -/
def idPlaceholder : Text := ['\x7b', 'i', 'd', '\x7d']

/-- The scanning loop of Go `strings.Replace(s, old, new, -1)` for a non-empty
`old`: at each position, an occurrence of `old` starting there is replaced by
`new` and the scan resumes after it; otherwise the character is kept.  The first
argument bounds the number of steps. -/
def replaceLoop {α : Type} [DecidableEq α] (old new : List α) : Nat → List α → List α
  | 0, s => s
  | _ + 1, [] => []
  | fuel + 1, c :: cs =>
    if old.isPrefixOf (c :: cs) then new ++ replaceLoop old new fuel ((c :: cs).drop old.length)
    else c :: replaceLoop old new fuel cs

/-- Go `strings.Replace(s, old, new, -1)`: every non-overlapping occurrence of
`old`, found left to right, replaced by `new`.  An empty `old` matches before
every character and at the end. -/
def stringsReplaceAll {α : Type} [DecidableEq α] (s old new : List α) : List α :=
  if old = new then s
  else if old = [] then new ++ s.flatMap (fun c => c :: new)
  else replaceLoop old new s.length s

/-- Digits of a natural number in base 16, most significant first, lower case
(`nat.utoa(16)` of `math/big`); zero is `0`. -/
def utoa16 (n : Nat) : Text :=
  if n = 0 then ['0'] else ((Nat.digits 16 n).reverse).map Nat.digitChar

/-- Go `fmt.Sprintf("%064x", x)` for `x *big.Int` (`big.Int.Format` with verb
`x`, flag `0`, width 64, no precision): sign, zero padding up to the width,
digits. -/
def sprintf064x (x : Int) : Text :=
  let sign : Text := if x < 0 then ['-'] else []
  let digits := utoa16 x.natAbs
  let length := sign.length + digits.length
  let zeros := if length < 64 then 64 - length else 0
  sign ++ List.replicate zeros '0' ++ digits

/-- The call message `Erc721TokenUri` sends. -/
def tokenUriMsg (contract : Address) (input : Bytes) : CallMsg :=
  { From := Address.zero, To := some contract, Data := input, Value := none }

/-- Method `Opera.Erc721TokenUri`.  The error half of the `CallContract` result
is assigned to `err` and overwritten by the result of `Unpack` before it is read. -/
def Opera.Erc721TokenUri (o : Opera) (contract : Address) (tokenId : Int) :
    (Text × Option GoError) × List Event :=
  match o.PackTokenURI tokenId with
  | (_, some err) => (([], some err), [Event.PackTokenURI tokenId])
  | (input, none) =>
    match o.CallContract (tokenUriMsg contract input) with
    | (data, _) =>
      match o.UnpackTokenURI data with
      | Except.error err =>
        (([], some err),
          [Event.PackTokenURI tokenId, Event.CallContract (tokenUriMsg contract input),
            Event.UnpackTokenURI data])
      | Except.ok uri =>
        ((stringsReplaceAll uri idPlaceholder (sprintf064x tokenId), none),
          [Event.PackTokenURI tokenId, Event.CallContract (tokenUriMsg contract input),
            Event.UnpackTokenURI data])

/-! ## `internal/repository/rpc/pay_token.go` -/

/-- Method `Opera.getPayToken`. -/
def Opera.getPayToken (o : Opera) (address : Address) : (PayToken × Option GoError) × List Event :=
  match o.NewErc20 address with
  | some err => ((PayToken.zero, some err), [Event.NewErc20 address])
  | none =>
    let t1 : PayToken := { PayToken.zero with Contract := address }
    let t2 : PayToken := { t1 with Name := (o.Erc20Name address).1 }
    match (o.Erc20Name address).2 with
    | some err => ((t2, some err), [Event.NewErc20 address, Event.Erc20Name address])
    | none =>
      let t3 : PayToken := { t2 with Symbol := (o.Erc20Symbol address).1 }
      match (o.Erc20Symbol address).2 with
      | some err =>
        ((t3, some err),
          [Event.NewErc20 address, Event.Erc20Name address, Event.Erc20Symbol address])
      | none =>
        match (o.Erc20Decimals address).2 with
        | some err =>
          ((t3, some err),
            [Event.NewErc20 address, Event.Erc20Name address, Event.Erc20Symbol address,
              Event.Erc20Decimals address])
        | none =>
          let t4 : PayToken := { t3 with Decimals := ((o.Erc20Decimals address).1.val : Int) }
          (({ t4 with UnitPrice := (o.GetPayTokenPrice address).1 },
              (o.GetPayTokenPrice address).2),
            [Event.NewErc20 address, Event.Erc20Name address, Event.Erc20Symbol address,
              Event.Erc20Decimals address, Event.GetPayTokenPrice address])

/-- The local `addresses` of `ListPayTokens`. -/
def payTokenAddresses : List String :=
  ["0xf1277d1Ed8AD466beddF92ef448A132661956621",
   "0x9Ee2EB7A843Af33BEAc5e669B50fd89873713520",
   "0x25b53190d995D0dE2Ba7DC15979767d791F5d995"]

/-- The `for _, address := range addresses` loop of `ListPayTokens`, started
with the tokens collected so far; a `nil` slice is the empty list. -/
def Opera.listPayTokensLoop (o : Opera) :
    List String → List PayToken → (List PayToken × Option GoError) × List Event
  | [], payTokens => ((payTokens, none), [])
  | address :: rest, payTokens =>
    match o.getPayToken (o.HexToAddress address) with
    | ((_, some err), calls) => (([], some err), calls)
    | ((payToken, none), calls) =>
      ((o.listPayTokensLoop rest (payTokens ++ [payToken])).1,
        calls ++ (o.listPayTokensLoop rest (payTokens ++ [payToken])).2)

/-- Method `Opera.ListPayTokens`. -/
def Opera.ListPayTokens (o : Opera) : (List PayToken × Option GoError) × List Event :=
  o.listPayTokensLoop payTokenAddresses []

/-! ## `internal/repository/collection.go` -/

/-- Method `Proxy.NFTContractType`. -/
def Proxy.NFTContractType (p : Proxy) (adr : Address) : (String × Option GoError) × List Event :=
  if p.IsErc721Contract adr then
    ((p.ContractTypeERC721, none), [Event.IsErc721Contract adr])
  else if p.IsErc1155Contract adr then
    ((p.ContractTypeERC1155, none), [Event.IsErc721Contract adr, Event.IsErc1155Contract adr])
  else
    (("", some (Errorf "unknown contract type at " (p.rpc.AddressString adr))),
      [Event.IsErc721Contract adr, Event.IsErc1155Contract adr])

/-- The error `fmt.Errorf("the contract is not ERC-721")`. -/
def errNotErc721 : GoError := ⟨"the contract is not ERC-721"⟩

/-- The error `fmt.Errorf("the contract is owned by somebody else")`. -/
def errOwnedBySomebodyElse : GoError := ⟨"the contract is owned by somebody else"⟩

/-- Method `Proxy.CanRegisterCollection`. -/
def Proxy.CanRegisterCollection (p : Proxy) (contract user : Address) :
    Option GoError × List Event :=
  if !p.IsErc721Contract contract then
    (some errNotErc721, [Event.IsErc721Contract contract])
  else
    match p.rpc.CollectionOwner contract with
    | some owner =>
      if !bytesEqual user.Bytes owner.Bytes then
        (some errOwnedBySomebodyElse,
          [Event.IsErc721Contract contract, Event.CollectionOwner contract])
      else
        (none, [Event.IsErc721Contract contract, Event.CollectionOwner contract])
    | none => (none, [Event.IsErc721Contract contract, Event.CollectionOwner contract])

/-- Method `Proxy.IsApprovedForAll`. -/
def Proxy.IsApprovedForAll (p : Proxy) (contract owner operator : Address) :
    (Bool × Option GoError) × List Event :=
  match p.rpc.Erc721IsApprovedForAll contract owner operator with
  | ((_, some err), calls) => ((false, some (Errorf "IsApprovedForAll failed; " err.msg)), calls)
  | ((isApproved, none), calls) => ((isApproved, none), calls)

/-! ## Concrete collaborators used to evaluate the code on examples -/

/-- The address whose 20 bytes all equal `b`. -/
def Address.fill (b : Byte) : Address := ⟨List.replicate 20 b, by simp⟩

/-- A gateway whose node accepts every call: constructors succeed, calls return
empty payloads without error, no owner is reported. -/
def calmOpera : Opera where
  AddressString := fun _ => "0xADDR"
  HexToAddress := fun _ => Address.zero
  CollectionOwner := fun _ => none
  NewErc721 := fun _ => none
  Erc721IsApprovedForAllCall := fun _ _ _ => (true, none)
  PackMint := fun _ _ => ([], none)
  PackTokenURI := fun _ => ([], none)
  UnpackTokenURI := fun _ => Except.ok []
  CallContract := fun _ => ([], none)
  EstimateGas := fun _ => (21000, none)
  NewErc20 := fun _ => none
  Erc20Name := fun _ => ("", none)
  Erc20Symbol := fun _ => ("", none)
  Erc20Decimals := fun _ => (18, none)
  GetPayTokenPrice := fun _ => (1, none)

/-- A facade over `calmOpera` whose probes answer `is721` and `is1155` for every contract. -/
def probeProxy (is721 is1155 : Bool) : Proxy where
  rpc := calmOpera
  IsErc721Contract := fun _ => is721
  IsErc1155Contract := fun _ => is1155
  ContractTypeERC721 := "ERC721"
  ContractTypeERC1155 := "ERC1155"

/-- A facade over a gateway that reports `owner` as the owner of every contract. -/
def ownedProxy (is721 : Bool) (owner : Option Address) : Proxy where
  rpc := { calmOpera with CollectionOwner := fun _ => owner }
  IsErc721Contract := fun _ => is721
  IsErc1155Contract := fun _ => false
  ContractTypeERC721 := "ERC721"
  ContractTypeERC1155 := "ERC1155"

/-! ## Reading a rendered token id, and templates cut at the placeholder -/

/-- The sixteen lower-case hexadecimal digits. -/
def lowerHexDigits : Text :=
  ['0', '1', '2', '3', '4', '5', '6', '7', '8', '9', 'a', 'b', 'c', 'd', 'e', 'f']

/-- Value of a hexadecimal digit character (`0` for any other character). -/
def hexDigitValue (c : Char) : Nat :=
  if '0' ≤ c ∧ c ≤ '9' then c.toNat - 48
  else if 'a' ≤ c ∧ c ≤ 'f' then c.toNat - 87
  else 0

/-- The number a text denotes in base 16, most significant digit first. -/
def hexValue (t : Text) : Nat := t.foldl (fun acc c => 16 * acc + hexDigitValue c) 0

/-- Pieces of text joined with a separator between consecutive pieces. -/
def joinWith {α : Type} (sep : List α) : List (List α) → List α
  | [] => []
  | [s] => s
  | s :: t :: rest => s ++ sep ++ joinWith sep (t :: rest)

/-! ## The node client and the decoder at a failed call -/

/-- Decoding of one ABI-encoded `string` output, after go-ethereum
`abi.Arguments.Unpack`: an empty payload is an error; the first word is the
offset of the length word, the length word is followed by that many bytes of
text. -/
def abiUnpackString (data : Bytes) : Except GoError Text :=
  if data.length = 0 then
    Except.error ⟨"abi: attempting to unmarshall an empty string while arguments are expected"⟩
  else if data.length < 32 then
    Except.error ⟨"abi: cannot marshal in to go type: length insufficient"⟩
  else
    let offsetEnd := SetBytes (data.take 32) + 32
    if data.length < offsetEnd then
      Except.error ⟨"abi: cannot marshal in to go slice: offset would go over slice boundary"⟩
    else
      let length := SetBytes ((data.drop (offsetEnd - 32)).take 32)
      if data.length < offsetEnd + length then
        Except.error ⟨"abi: cannot marshal in to go type: length insufficient"⟩
      else
        Except.ok (((data.drop offsetEnd).take length).map (fun b => Char.ofNat b.val))

/-- Modelled from the spec: the node client's
`Call(contractAddress, encodedData) -> bytes | error` answers with bytes or with
an error, not with both; as a Go pair, a non-nil error comes with a nil payload
(what `ethclient.Client.CallContract` returns on a failed call). -/
def Opera.bytesOrError (o : Opera) : Prop :=
  ∀ msg, (o.CallContract msg).2 ≠ none → (o.CallContract msg).1 = []

/-- The decoder of the `tokenURI` output rejects an empty payload, as go-ethereum
`abi.Arguments.Unpack` does for a method that has an output. -/
def Opera.rejectsEmptyPayload (o : Opera) : Prop :=
  ∃ e, o.UnpackTokenURI [] = Except.error e

/-- A gateway whose node fails every contract call: a nil payload and the error
`connection reset`; responses are decoded by `abiUnpackString`. -/
def resetOpera : Opera :=
  { calmOpera with
    UnpackTokenURI := abiUnpackString
    CallContract := fun _ => ([], some ⟨"connection reset"⟩) }

/-- A gateway whose contract answers the token-URI call with the template
`u/` placeholder `.j`. -/
def templateOpera : Opera :=
  { calmOpera with
    UnpackTokenURI := fun _ => Except.ok (['u', '/'] ++ idPlaceholder ++ ['.', 'j']) }

/-! ## Auxiliary facts -/

/-- The characters of the second operand occur inside an appended string. -/
theorem data_infix_append (a b : String) : b.data <:+: (a ++ b).data := by
  rw [String.data_append]
  exact (List.suffix_append _ _).isInfix

/-! ## Contract-type detection -/

/-- C1: when the ERC-721 probe succeeds, `NFTContractType` returns the ERC-721
type with a nil error and consults nothing but the ERC-721 probe, whatever
function answers the ERC-1155 probe (so a contract passing both probes is
ERC-721); the ERC-1155 probe appears among the calls made only when the ERC-721
probe failed. -/
theorem NFTContractType_erc721_priority (p : Proxy) (adr : Address) :
    (p.IsErc721Contract adr = true →
      ∀ probe1155 : Address → Bool,
        Proxy.NFTContractType { p with IsErc1155Contract := probe1155 } adr
          = ((p.ContractTypeERC721, none), [Event.IsErc721Contract adr]))
    ∧ (p.IsErc721Contract adr = true → p.IsErc1155Contract adr = true →
        (p.NFTContractType adr).1 = (p.ContractTypeERC721, none))
    ∧ (∀ a, Event.IsErc1155Contract a ∈ (p.NFTContractType adr).2 →
        p.IsErc721Contract adr = false) := by
  refine ⟨?_, ?_, ?_⟩
  · intro h probe1155
    simp [Proxy.NFTContractType, h]
  · intro h _
    simp [Proxy.NFTContractType, h]
  · intro a ha
    cases h : p.IsErc721Contract adr
    · rfl
    · simp [Proxy.NFTContractType, h] at ha

/-- C1 at a contract for which both probes succeed: the type is ERC-721, the
error is nil and only the ERC-721 probe was called. -/
theorem NFTContractType_erc721_priority_witness :
    (probeProxy true true).NFTContractType (Address.fill 7)
      = (("ERC721", none), [Event.IsErc721Contract (Address.fill 7)]) :=
  (NFTContractType_erc721_priority (probeProxy true true) (Address.fill 7)).1 rfl
    (fun _ => true)

/-- C2: `NFTContractType` returns a non-nil error exactly when both probes
fail; then the type is the empty string and the message is
`unknown contract type at ` followed by the string form of the probed address,
which it therefore contains; when only the ERC-1155 probe succeeds the result
is the ERC-1155 type with a nil error. -/
theorem NFTContractType_error_iff_both_fail (p : Proxy) (adr : Address) :
    ((p.NFTContractType adr).1.2 ≠ none ↔
        (p.IsErc721Contract adr = false ∧ p.IsErc1155Contract adr = false))
    ∧ (∀ e, (p.NFTContractType adr).1.2 = some e →
        (p.NFTContractType adr).1.1 = ""
        ∧ e.msg = "unknown contract type at " ++ p.rpc.AddressString adr
        ∧ (p.rpc.AddressString adr).data <:+: e.msg.data)
    ∧ (p.IsErc721Contract adr = false → p.IsErc1155Contract adr = true →
        (p.NFTContractType adr).1 = (p.ContractTypeERC1155, none)) := by
  refine ⟨?_, ?_, ?_⟩
  · cases h1 : p.IsErc721Contract adr <;> cases h2 : p.IsErc1155Contract adr <;>
      simp [Proxy.NFTContractType, h1, h2]
  · intro e he
    cases h1 : p.IsErc721Contract adr <;> cases h2 : p.IsErc1155Contract adr <;>
      simp [Proxy.NFTContractType, h1, h2, Errorf] at he ⊢
    subst he
    exact ⟨rfl, data_infix_append _ _⟩
  · intro h1 h2
    simp [Proxy.NFTContractType, h1, h2]

/-- C2 at a contract failing both probes: the error is non-nil. -/
theorem NFTContractType_error_iff_both_fail_witness :
    ((probeProxy false false).NFTContractType (Address.fill 7)).1.2 ≠ none :=
  (NFTContractType_error_iff_both_fail (probeProxy false false) (Address.fill 7)).1.2
    ⟨rfl, rfl⟩

/-! ## Registration and approval -/

/-- C3: `CanRegisterCollection` returns nil exactly when the ERC-721 probe
passes and the owner is absent or byte-equal to the user; when the probe fails
the result is the not-ERC-721 error whatever the owner lookup would answer,
and the owner is not looked up; when the probe passes and a present owner
differs from the user the result is the owned-by-somebody-else error, which is
a different error. -/
theorem CanRegisterCollection_nil_iff (p : Proxy) (contract user : Address) :
    ((p.CanRegisterCollection contract user).1 = none ↔
        (p.IsErc721Contract contract = true ∧
          (p.rpc.CollectionOwner contract = none ∨
            ∃ owner, p.rpc.CollectionOwner contract = some owner ∧ owner.Bytes = user.Bytes)))
    ∧ (p.IsErc721Contract contract = false →
        ∀ ownerOf : Address → Option Address,
          Proxy.CanRegisterCollection
              { p with rpc := { p.rpc with CollectionOwner := ownerOf } } contract user
            = (some errNotErc721, [Event.IsErc721Contract contract]))
    ∧ (p.IsErc721Contract contract = true →
        ∀ owner, p.rpc.CollectionOwner contract = some owner → owner.Bytes ≠ user.Bytes →
          (p.CanRegisterCollection contract user).1 = some errOwnedBySomebodyElse)
    ∧ errNotErc721 ≠ errOwnedBySomebodyElse := by
  refine ⟨?_, ?_, ?_, by decide⟩
  · cases h1 : p.IsErc721Contract contract
    · simp [Proxy.CanRegisterCollection, h1]
    · cases h2 : p.rpc.CollectionOwner contract with
      | none => simp [Proxy.CanRegisterCollection, h1, h2]
      | some owner =>
        by_cases hb : user.Bytes = owner.Bytes
        · simp [Proxy.CanRegisterCollection, h1, h2, bytesEqual, hb]
        · have hb2 : ¬ owner.Bytes = user.Bytes := fun h => hb h.symm
          simp [Proxy.CanRegisterCollection, h1, h2, bytesEqual, hb, hb2]
  · intro h1 ownerOf
    simp [Proxy.CanRegisterCollection, h1]
  · intro h1 owner h2 hne
    have hb : ¬ user.Bytes = owner.Bytes := fun h => hne h.symm
    simp [Proxy.CanRegisterCollection, h1, h2, bytesEqual, hb]

/-- C3 at an ERC-721 contract owned by the requesting user: registration is allowed. -/
theorem CanRegisterCollection_nil_iff_witness :
    ((ownedProxy true (some (Address.fill 9))).CanRegisterCollection
        (Address.fill 7) (Address.fill 9)).1 = none :=
  (CanRegisterCollection_nil_iff (ownedProxy true (some (Address.fill 9)))
      (Address.fill 7) (Address.fill 9)).1.2
    ⟨rfl, Or.inr ⟨Address.fill 9, rfl, rfl⟩⟩

/-- C8: when the gateway's `Erc721IsApprovedForAll` returns an error, the
facade returns false with a non-nil error whose message is
`IsApprovedForAll failed; ` followed by the gateway error's message, which it
therefore contains; when the gateway returns `(b, nil)` the facade returns
`(b, nil)`. -/
theorem IsApprovedForAll_wraps_error (p : Proxy) (contract owner operator : Address) :
    (∀ b e, (p.rpc.Erc721IsApprovedForAll contract owner operator).1 = (b, some e) →
        (p.IsApprovedForAll contract owner operator).1
            = (false, some ⟨"IsApprovedForAll failed; " ++ e.msg⟩)
        ∧ e.msg.data <:+: ("IsApprovedForAll failed; " ++ e.msg).data)
    ∧ (∀ b, (p.rpc.Erc721IsApprovedForAll contract owner operator).1 = (b, none) →
        (p.IsApprovedForAll contract owner operator).1 = (b, none)) := by
  refine ⟨?_, ?_⟩
  · intro b e h
    refine ⟨?_, data_infix_append _ _⟩
    unfold Proxy.IsApprovedForAll
    rcases hg : p.rpc.Erc721IsApprovedForAll contract owner operator with ⟨⟨b', e'⟩, calls⟩
    rw [hg] at h
    cases h
    rfl
  · intro b h
    unfold Proxy.IsApprovedForAll
    rcases hg : p.rpc.Erc721IsApprovedForAll contract owner operator with ⟨⟨b', e'⟩, calls⟩
    rw [hg] at h
    cases h
    rfl

/-- C8 at a gateway whose binding constructor fails: the facade reports the wrapped error. -/
theorem IsApprovedForAll_wraps_error_witness :
    (Proxy.IsApprovedForAll
        { probeProxy true false with
          rpc := { calmOpera with NewErc721 := fun _ => some ⟨"dial failed"⟩ } }
        (Address.fill 1) (Address.fill 2) (Address.fill 3)).1
      = (false, some ⟨"IsApprovedForAll failed; dial failed"⟩) :=
  ((IsApprovedForAll_wraps_error
      { probeProxy true false with
        rpc := { calmOpera with NewErc721 := fun _ => some ⟨"dial failed"⟩ } }
      (Address.fill 1) (Address.fill 2) (Address.fill 3)).1 false ⟨"dial failed"⟩ rfl).1

/-! ## Fee resolution and mint eligibility -/

/-- Reading bytes big-endian from an accumulator stays below the next power of 256. -/
theorem foldl_bytes_lt (data : Bytes) (acc : Nat) :
    data.foldl (fun a b => a * 256 + b.val) acc < (acc + 1) * 256 ^ data.length := by
  induction data generalizing acc with
  | nil => simp
  | cons b t ih =>
    have hb : b.val < 256 := b.isLt
    have h1 := ih (acc * 256 + b.val)
    have h2 : (acc * 256 + b.val + 1) * 256 ^ t.length ≤ ((acc + 1) * 256) * 256 ^ t.length :=
      Nat.mul_le_mul_right _ (by omega)
    simp only [List.foldl_cons, List.length_cons, pow_succ]
    calc List.foldl (fun a b => a * 256 + b.val) (acc * 256 + b.val) t
        < (acc * 256 + b.val + 1) * 256 ^ t.length := h1
      _ ≤ ((acc + 1) * 256) * 256 ^ t.length := h2
      _ = (acc + 1) * (256 ^ t.length * 256) := by ring

/-- A payload of `n` bytes denotes a number below `256 ^ n`. -/
theorem SetBytes_lt (data : Bytes) : SetBytes data < 256 ^ data.length := by
  have h := foldl_bytes_lt data 0
  simpa [SetBytes] using h

/-- The calls `MustPlatformFee` makes: the one contract call for the fee. -/
theorem MustPlatformFee_calls (o : Opera) (contract : Address) :
    (o.MustPlatformFee contract).2 = [Event.CallContract (platformFeeMsg contract)] := by
  unfold Opera.MustPlatformFee
  rcases o.CallContract (platformFeeMsg contract) with ⟨data, _ | e⟩
  · dsimp only
    split <;> rfl
  · rfl

/-- The calls `CanMintErc721` makes: the encoder alone when it fails; otherwise
the encoder, the calls of the fee step, and one gas estimation of the mint message. -/
theorem CanMintErc721_calls (o : Opera) (contract user : Address) (fee : Option Int) :
    (o.CanMintErc721 contract user fee).2 =
      match (o.PackMint user defaultMintingTestTokenUrl).2 with
      | some _ => [Event.PackMint user defaultMintingTestTokenUrl]
      | none =>
        [Event.PackMint user defaultMintingTestTokenUrl] ++ (o.resolveFee contract fee).2 ++
          [Event.EstimateGas (mintMsg contract user
            (o.PackMint user defaultMintingTestTokenUrl).1 (o.resolveFee contract fee).1)] := by
  unfold Opera.CanMintErc721
  rcases o.PackMint user defaultMintingTestTokenUrl with ⟨data, _ | e⟩
  · dsimp only
    rcases o.EstimateGas (mintMsg contract user data (o.resolveFee contract fee).1)
      with ⟨gas, _ | e⟩ <;> rfl
  · rfl

/-- C4: the fee handed to gas estimation follows the fallback chain.
`MustPlatformFee` is a total function into the integers: it is the default fee
`0x8AC7230489E80000 = 10 * 10^18` when the node call returns an error or a
payload whose length is not 32, and otherwise the payload read big-endian, a
value in `[0, 2^256)`.  In `CanMintErc721` every gas estimation made carries as
value the caller-supplied fee when one is given, and then the contract is not
called for its fee; otherwise it carries `MustPlatformFee contract`.  When
call-data encoding succeeds, such an estimation is made. -/
theorem fee_fallback_chain (o : Opera) (contract user : Address) (fee : Option Int) :
    defaultMintingTestFee = 10 * 10 ^ 18
    ∧ (((o.CallContract (platformFeeMsg contract)).2 ≠ none
          ∨ (o.CallContract (platformFeeMsg contract)).1.length ≠ 32) →
        (o.MustPlatformFee contract).1 = defaultMintingTestFee)
    ∧ ((o.CallContract (platformFeeMsg contract)).2 = none →
        (o.CallContract (platformFeeMsg contract)).1.length = 32 →
        (o.MustPlatformFee contract).1
            = (SetBytes (o.CallContract (platformFeeMsg contract)).1 : Int)
        ∧ 0 ≤ (o.MustPlatformFee contract).1
        ∧ (o.MustPlatformFee contract).1 < 2 ^ 256)
    ∧ (∀ msg, Event.EstimateGas msg ∈ (o.CanMintErc721 contract user fee).2 →
        msg.Value = some (match fee with
          | some f => f
          | none => (o.MustPlatformFee contract).1))
    ∧ (fee ≠ none → ∀ msg, Event.CallContract msg ∉ (o.CanMintErc721 contract user fee).2)
    ∧ ((o.PackMint user defaultMintingTestTokenUrl).2 = none →
        ∃ msg, Event.EstimateGas msg ∈ (o.CanMintErc721 contract user fee).2) := by
  refine ⟨by decide, ?_, ?_, ?_, ?_, ?_⟩
  · intro h
    unfold Opera.MustPlatformFee
    rcases hc : o.CallContract (platformFeeMsg contract) with ⟨data, _ | e⟩
    · rw [hc] at h
      simp at h
      simp [h]
    · rfl
  · intro h1 h2
    have hv : (o.MustPlatformFee contract).1
        = (SetBytes (o.CallContract (platformFeeMsg contract)).1 : Int) := by
      unfold Opera.MustPlatformFee
      rcases hc : o.CallContract (platformFeeMsg contract) with ⟨data, _ | e⟩
      · rw [hc] at h2
        simp at h2
        simp [h2]
      · rw [hc] at h1
        simp at h1
    refine ⟨hv, ?_, ?_⟩
    · rw [hv]
      exact Int.natCast_nonneg _
    · rw [hv]
      have hlt := SetBytes_lt (o.CallContract (platformFeeMsg contract)).1
      rw [h2] at hlt
      have h256 : (256 : Nat) ^ 32 = 2 ^ 256 := by norm_num
      rw [h256] at hlt
      exact_mod_cast hlt
  · intro msg hmem
    rw [CanMintErc721_calls] at hmem
    cases hp : (o.PackMint user defaultMintingTestTokenUrl).2 with
    | some e => simp [hp] at hmem
    | none =>
      cases fee with
      | none =>
        simp [hp, Opera.resolveFee, MustPlatformFee_calls] at hmem
        subst hmem
        simp [mintMsg, Opera.resolveFee]
      | some f =>
        simp [hp, Opera.resolveFee] at hmem
        subst hmem
        simp [mintMsg]
  · intro hfee msg hmem
    rw [CanMintErc721_calls] at hmem
    cases fee with
    | none => exact hfee rfl
    | some f =>
      cases hp : (o.PackMint user defaultMintingTestTokenUrl).2 with
      | some e => simp [hp] at hmem
      | none => simp [hp, Opera.resolveFee] at hmem
  · intro hp
    refine ⟨mintMsg contract user (o.PackMint user defaultMintingTestTokenUrl).1
      (o.resolveFee contract fee).1, ?_⟩
    rw [CanMintErc721_calls]
    simp [hp]

/-- C4 at a node that answers the fee call with a one-byte payload: the
contract's fee is unusable and the default fee is returned. -/
theorem fee_fallback_chain_witness :
    (Opera.MustPlatformFee { calmOpera with CallContract := fun _ => ([5], none) }
        (Address.fill 7)).1 = 10000000000000000000 :=
  (fee_fallback_chain { calmOpera with CallContract := fun _ => ([5], none) }
      (Address.fill 7) (Address.fill 9) none).2.1 (Or.inr (by decide))

/-- C5: if encoding the mint call data fails, `CanMintErc721` returns false
with that error and makes no gas estimation (the encoder is the only call
made); if encoding succeeds, it returns `(true, nil)` exactly when the gas
estimation of the mint message succeeds and `(false, nil)` exactly when it
returns an error.  It never returns true together with a non-nil error. -/
theorem CanMintErc721_outcomes (o : Opera) (contract user : Address) (fee : Option Int) :
    (∀ e, (o.PackMint user defaultMintingTestTokenUrl).2 = some e →
        o.CanMintErc721 contract user fee
          = ((false, some e), [Event.PackMint user defaultMintingTestTokenUrl]))
    ∧ ((o.PackMint user defaultMintingTestTokenUrl).2 = none →
        ((o.CanMintErc721 contract user fee).1 = (true, none) ↔
            (o.EstimateGas (mintMsg contract user (o.PackMint user defaultMintingTestTokenUrl).1
              (o.resolveFee contract fee).1)).2 = none)
        ∧ ((o.CanMintErc721 contract user fee).1 = (false, none) ↔
            (o.EstimateGas (mintMsg contract user (o.PackMint user defaultMintingTestTokenUrl).1
              (o.resolveFee contract fee).1)).2 ≠ none))
    ∧ ¬ ((o.CanMintErc721 contract user fee).1.1 = true
          ∧ (o.CanMintErc721 contract user fee).1.2 ≠ none) := by
  refine ⟨?_, ?_, ?_⟩
  · intro e he
    unfold Opera.CanMintErc721
    rcases hp : o.PackMint user defaultMintingTestTokenUrl with ⟨data, _ | e'⟩
    · rw [hp] at he
      simp at he
    · rw [hp] at he
      simp at he
      subst he
      rfl
  · intro hnone
    unfold Opera.CanMintErc721
    rcases hp : o.PackMint user defaultMintingTestTokenUrl with ⟨data, _ | e'⟩
    · rcases hg : o.EstimateGas
          (mintMsg contract user data (o.resolveFee contract fee).1) with ⟨gas, _ | e⟩
      · simp [hg]
      · simp [hg]
    · rw [hp] at hnone
      simp at hnone
  · unfold Opera.CanMintErc721
    rcases hp : o.PackMint user defaultMintingTestTokenUrl with ⟨data, _ | e'⟩
    · rcases hg : o.EstimateGas
          (mintMsg contract user data (o.resolveFee contract fee).1) with ⟨gas, _ | e⟩
      · simp [hg]
      · simp [hg]
    · simp

/-- C5 at a node whose gas estimation reverts: the answer is false with a nil error. -/
theorem CanMintErc721_outcomes_witness :
    (Opera.CanMintErc721
        { calmOpera with EstimateGas := fun _ => (0, some ⟨"execution reverted"⟩) }
        (Address.fill 7) (Address.fill 9) (some 5)).1 = (false, none) :=
  ((CanMintErc721_outcomes
      { calmOpera with EstimateGas := fun _ => (0, some ⟨"execution reverted"⟩) }
      (Address.fill 7) (Address.fill 9) (some 5)).2.1 rfl).2.2 (by simp)

/-! ## Pay-token enumeration -/

/-- A successful `getPayToken` returns a token whose `Contract` is the address asked for. -/
theorem getPayToken_contract (o : Opera) (address : Address)
    (h : (o.getPayToken address).1.2 = none) :
    (o.getPayToken address).1.1.Contract = address := by
  unfold Opera.getPayToken at h ⊢
  cases h0 : o.NewErc20 address with
  | some e => simp [h0] at h
  | none =>
    cases h1 : (o.Erc20Name address).2 with
    | some e => simp [h0, h1] at h
    | none =>
      cases h2 : (o.Erc20Symbol address).2 with
      | some e => simp [h0, h1, h2] at h
      | none =>
        cases h3 : (o.Erc20Decimals address).2 with
        | some e => simp [h0, h1, h2, h3] at h
        | none => simp [h0, h1, h2, h3]

/-- The loop of `ListPayTokens` on any address list: either every fetch
succeeds and the tokens are appended in order, or the loop stops at the first
failing address with its error, a nil list, and no call after that fetch. -/
theorem listPayTokensLoop_spec (o : Opera) (addrs : List String) (acc : List PayToken) :
    ((∀ a ∈ addrs, (o.getPayToken (o.HexToAddress a)).1.2 = none)
      ∧ o.listPayTokensLoop addrs acc
          = ((acc ++ addrs.map (fun a => (o.getPayToken (o.HexToAddress a)).1.1), none),
              addrs.flatMap (fun a => (o.getPayToken (o.HexToAddress a)).2)))
    ∨ (∃ pre a post e, addrs = pre ++ a :: post
        ∧ (∀ b ∈ pre, (o.getPayToken (o.HexToAddress b)).1.2 = none)
        ∧ (o.getPayToken (o.HexToAddress a)).1.2 = some e
        ∧ o.listPayTokensLoop addrs acc
            = (([], some e),
                (pre ++ [a]).flatMap (fun b => (o.getPayToken (o.HexToAddress b)).2))) := by
  induction addrs generalizing acc with
  | nil =>
    left
    simp [Opera.listPayTokensLoop]
  | cons a rest ih =>
    rcases hg : o.getPayToken (o.HexToAddress a) with ⟨⟨tok, _ | e⟩, calls⟩
    · rcases ih (acc ++ [tok]) with ⟨hall, hloop⟩ | ⟨pre, b, post, e, hsplit, hpre, hb, hloop⟩
      · left
        refine ⟨?_, ?_⟩
        · intro x hx
          rcases List.mem_cons.1 hx with rfl | hx
          · rw [hg]
          · exact hall x hx
        · simp [Opera.listPayTokensLoop, hg, hloop]
      · right
        refine ⟨a :: pre, b, post, e, by simp [hsplit], ?_, hb, ?_⟩
        · intro x hx
          rcases List.mem_cons.1 hx with rfl | hx
          · rw [hg]
          · exact hpre x hx
        · simp [Opera.listPayTokensLoop, hg, hloop]
    · right
      refine ⟨[], a, rest, e, rfl, by simp, by rw [hg], ?_⟩
      simp [Opera.listPayTokensLoop, hg]

/-- C9: `ListPayTokens` returns a non-nil error exactly when `getPayToken`
fails for one of the fixed addresses; then the list is nil, the error is that
of the first failing address in list order, and the calls made are those of
the fetches up to and including that address, none for a later one.  When no
fetch fails it returns the three fetched tokens in the order of the address
list, each with `Contract` equal to the address it was fetched for, and a nil
error. -/
theorem ListPayTokens_fail_fast (o : Opera) :
    ((o.ListPayTokens).1.2 ≠ none ↔
        ∃ a ∈ payTokenAddresses, (o.getPayToken (o.HexToAddress a)).1.2 ≠ none)
    ∧ (∀ e, (o.ListPayTokens).1.2 = some e →
        (o.ListPayTokens).1.1 = []
        ∧ ∃ pre a post, payTokenAddresses = pre ++ a :: post
          ∧ (∀ b ∈ pre, (o.getPayToken (o.HexToAddress b)).1.2 = none)
          ∧ (o.getPayToken (o.HexToAddress a)).1.2 = some e
          ∧ (o.ListPayTokens).2
              = (pre ++ [a]).flatMap (fun b => (o.getPayToken (o.HexToAddress b)).2))
    ∧ ((o.ListPayTokens).1.2 = none →
        (o.ListPayTokens).1.1
            = payTokenAddresses.map (fun a => (o.getPayToken (o.HexToAddress a)).1.1)
        ∧ (o.ListPayTokens).1.1.length = 3
        ∧ (o.ListPayTokens).1.1.map PayToken.Contract
            = payTokenAddresses.map o.HexToAddress) := by
  unfold Opera.ListPayTokens
  rcases listPayTokensLoop_spec o payTokenAddresses []
    with ⟨hall, hloop⟩ | ⟨pre, b, post, e, hsplit, hpre, hb, hloop⟩
  · rw [hloop]
    refine ⟨?_, ?_, ?_⟩
    · constructor
      · intro h
        exact absurd rfl h
      · rintro ⟨a, ha, hne⟩
        exact absurd (hall a ha) hne
    · intro e he
      simp at he
    · intro _
      refine ⟨by simp, by simp [payTokenAddresses], ?_⟩
      simp only [List.nil_append, List.map_map]
      apply List.map_congr_left
      intro a ha
      exact getPayToken_contract o _ (hall a ha)
  · rw [hloop]
    refine ⟨?_, ?_, ?_⟩
    · constructor
      · intro _
        refine ⟨b, by simp [hsplit], ?_⟩
        rw [hb]
        simp
      · intro _
        simp
    · intro e' he'
      simp at he'
      subst he'
      exact ⟨rfl, pre, b, post, hsplit, hpre, hb, rfl⟩
    · intro h
      simp at h

/-- C9 at a node where every token fetch succeeds: three tokens are returned. -/
theorem ListPayTokens_fail_fast_witness :
    (calmOpera.ListPayTokens).1.1.length = 3 :=
  ((ListPayTokens_fail_fast calmOpera).2.2 rfl).2.1

/-! ## Token URI: rendering of the token id -/

/-- Every digit below sixteen is written as a lower-case hexadecimal character. -/
theorem digitChar_mem_lowerHexDigits (d : Nat) (h : d < 16) :
    Nat.digitChar d ∈ lowerHexDigits := by
  interval_cases d <;> decide

/-- Reading back the character of a digit below sixteen gives the digit. -/
theorem hexDigitValue_digitChar (d : Nat) (h : d < 16) :
    hexDigitValue (Nat.digitChar d) = d := by
  interval_cases d <;> decide

/-- The digits of a number below `16 ^ 64` are at least one and at most 64 characters. -/
theorem utoa16_length (n : Nat) (h : n < 16 ^ 64) :
    1 ≤ (utoa16 n).length ∧ (utoa16 n).length ≤ 64 := by
  unfold utoa16
  by_cases hn : n = 0
  · simp [hn]
  · have hne : Nat.digits 16 n ≠ [] := Nat.digits_ne_nil_iff_ne_zero.mpr hn
    have hpos : 0 < (Nat.digits 16 n).length := List.length_pos.mpr hne
    have hle := Nat.base_pow_length_digits_le 16 n (by norm_num) hn
    have hlt : 16 ^ (Nat.digits 16 n).length < 16 ^ 65 := by
      calc 16 ^ (Nat.digits 16 n).length ≤ 16 * n := hle
        _ < 16 * 16 ^ 64 := by omega
        _ = 16 ^ 65 := by norm_num
    have hlen : (Nat.digits 16 n).length < 65 :=
      (Nat.pow_lt_pow_iff_right (by norm_num)).1 hlt
    simp only [hn, if_false, List.length_map, List.length_reverse]
    omega

/-- Every character of the digits is a lower-case hexadecimal digit. -/
theorem utoa16_mem (n : Nat) : ∀ c ∈ utoa16 n, c ∈ lowerHexDigits := by
  intro c hc
  unfold utoa16 at hc
  by_cases hn : n = 0
  · simp [hn] at hc
    subst hc
    decide
  · simp only [hn, if_false, List.mem_map, List.mem_reverse] at hc
    rcases hc with ⟨d, hd, rfl⟩
    exact digitChar_mem_lowerHexDigits d (Nat.digits_lt_base (by norm_num) hd)

/-- Reading digit characters most significant first, from an accumulator. -/
theorem foldl_hex_map_digitChar (ds : List Nat) (hds : ∀ d ∈ ds, d < 16) (acc : Nat) :
    (ds.map Nat.digitChar).foldl (fun a c => 16 * a + hexDigitValue c) acc
      = ds.foldl (fun a d => 16 * a + d) acc := by
  induction ds generalizing acc with
  | nil => rfl
  | cons d t ih =>
    have hd : d < 16 := hds d (List.mem_cons_self _ _)
    have ht : ∀ x ∈ t, x < 16 := fun x hx => hds x (List.mem_cons_of_mem _ hx)
    simp only [List.map_cons, List.foldl_cons, hexDigitValue_digitChar d hd]
    exact ih ht _

/-- The digits of a number denote that number. -/
theorem hexValue_utoa16 (n : Nat) : hexValue (utoa16 n) = n := by
  unfold utoa16 hexValue
  by_cases hn : n = 0
  · subst hn
    decide
  · simp only [hn, if_false]
    rw [foldl_hex_map_digitChar _ (fun d hd =>
      Nat.digits_lt_base (by norm_num) (List.mem_reverse.1 hd))]
    rw [List.foldl_reverse]
    have h := Nat.ofDigits_digits 16 n
    rw [Nat.ofDigits_eq_foldr] at h
    have hf : (fun (x : Nat) (y : Nat) => 16 * y + x) = (fun (x : Nat) (y : Nat) => x + 16 * y) := by
      funext x y
      omega
    simpa [hf] using h

/-- Leading zeros do not change the number denoted. -/
theorem hexValue_zeros_append (k : Nat) (t : Text) :
    hexValue (List.replicate k '0' ++ t) = hexValue t := by
  unfold hexValue
  rw [List.foldl_append]
  congr 1
  induction k with
  | zero => rfl
  | succ k ih =>
    rw [List.replicate_succ, List.foldl_cons]
    exact ih

/-- For a token id in `[0, 2^256)` the rendering is zero padding followed by the digits. -/
theorem sprintf064x_nonneg (t : Int) (h0 : 0 ≤ t) (h1 : t < 2 ^ 256) :
    sprintf064x t
      = List.replicate (64 - (utoa16 t.natAbs).length) '0' ++ utoa16 t.natAbs := by
  have hn : t.natAbs < 16 ^ 64 := by
    have : (t.natAbs : Int) < 2 ^ 256 := by
      rw [Int.natAbs_of_nonneg h0]
      exact h1
    have h2 : (16 : Nat) ^ 64 = 2 ^ 256 := by norm_num
    rw [h2]
    exact_mod_cast this
  have hlen := utoa16_length t.natAbs hn
  have hneg : ¬ t < 0 := not_lt.mpr h0
  unfold sprintf064x
  simp only [hneg, if_false, List.length_nil, Nat.zero_add, List.nil_append]
  by_cases hlt : (utoa16 t.natAbs).length < 64
  · simp [hlt]
  · have heq : (utoa16 t.natAbs).length = 64 := by omega
    simp [heq]

/-! ## Token URI: replacement of the placeholder -/

/-- Any step bound at least the length of the text gives the same replacement. -/
theorem replaceLoop_fuel {α : Type} [DecidableEq α] (old new : List α) (hold : old ≠ []) :
    ∀ (f1 f2 : Nat) (s : List α), s.length ≤ f1 → s.length ≤ f2 →
      replaceLoop old new f1 s = replaceLoop old new f2 s := by
  have hpos : 0 < old.length := List.length_pos.mpr hold
  intro f1
  induction f1 with
  | zero =>
    intro f2 s h1 _
    have hs : s = [] := List.length_eq_zero.1 (Nat.le_zero.1 h1)
    subst hs
    cases f2 <;> rfl
  | succ f1 ih =>
    intro f2 s h1 h2
    cases s with
    | nil => cases f2 <;> rfl
    | cons c cs =>
      cases f2 with
      | zero => simp at h2
      | succ f2 =>
        simp only [List.length_cons, Nat.add_le_add_iff_right] at h1 h2
        have hd : ((c :: cs).drop old.length).length ≤ cs.length := by
          simp only [List.length_drop, List.length_cons]
          omega
        simp only [replaceLoop]
        rw [ih f2 ((c :: cs).drop old.length) (hd.trans h1) (hd.trans h2), ih f2 cs h1 h2]

/-- Where the text does not start with `old`, its first character is kept. -/
theorem replaceLoop_cons_no_match {α : Type} [DecidableEq α] (old new : List α)
    (c : α) (cs : List α) (h : old.isPrefixOf (c :: cs) = false) :
    replaceLoop old new (c :: cs).length (c :: cs)
      = c :: replaceLoop old new cs.length cs := by
  simp [replaceLoop, h]

/-- Where the text starts with `old`, that occurrence becomes `new`. -/
theorem replaceLoop_append_match {α : Type} [DecidableEq α] (old new : List α)
    (hold : old ≠ []) (x : List α) :
    replaceLoop old new (old ++ x).length (old ++ x)
      = new ++ replaceLoop old new x.length x := by
  cases old with
  | nil => exact absurd rfl hold
  | cons o os =>
    have hp : (o :: os).isPrefixOf (o :: (os ++ x)) = true :=
      List.isPrefixOf_iff_prefix.2 ⟨x, rfl⟩
    have hlen : (o :: os ++ x).length = (os ++ x).length + 1 := by simp
    have hdrop : (o :: (os ++ x)).drop (o :: os).length = x := by
      simp
    rw [hlen]
    show (if (o :: os).isPrefixOf (o :: (os ++ x)) = true then
        new ++ replaceLoop (o :: os) new (os ++ x).length ((o :: (os ++ x)).drop (o :: os).length)
      else o :: replaceLoop (o :: os) new (os ++ x).length (os ++ x)) = _
    rw [if_pos hp, hdrop,
      replaceLoop_fuel (o :: os) new hold (os ++ x).length x.length x (by simp) le_rfl]

/-- A non-empty piece that does not contain the placeholder, followed by
nothing or by a placeholder, does not start with the placeholder. -/
theorem idPlaceholder_no_match (seg tail : Text) (hne : seg ≠ [])
    (hseg : ¬ idPlaceholder <:+: seg)
    (htail : tail = [] ∨ ∃ more, tail = idPlaceholder ++ more) :
    idPlaceholder.isPrefixOf (seg ++ tail) = false := by
  cases h : idPlaceholder.isPrefixOf (seg ++ tail) with
  | false => rfl
  | true =>
    exfalso
    obtain ⟨r, hr⟩ := List.isPrefixOf_iff_prefix.1 h
    rcases seg with _ | ⟨a, _ | ⟨b, _ | ⟨c, _ | ⟨d, rest⟩⟩⟩⟩
    · exact hne rfl
    · rcases htail with rfl | ⟨more, rfl⟩ <;> simp [idPlaceholder] at hr
    · rcases htail with rfl | ⟨more, rfl⟩ <;> simp [idPlaceholder] at hr
    · rcases htail with rfl | ⟨more, rfl⟩ <;> simp [idPlaceholder] at hr
    · simp only [idPlaceholder, List.cons_append, List.nil_append, List.cons.injEq] at hr
      obtain ⟨ha, hb, hc, hd, _⟩ := hr
      subst ha hb hc hd
      exact hseg ⟨[], rest, rfl⟩

/-- A piece without placeholder, followed by nothing or by a placeholder, is kept as it is. -/
theorem replaceLoop_piece (new seg tail : Text) (hseg : ¬ idPlaceholder <:+: seg)
    (htail : tail = [] ∨ ∃ more, tail = idPlaceholder ++ more) :
    replaceLoop idPlaceholder new (seg ++ tail).length (seg ++ tail)
      = seg ++ replaceLoop idPlaceholder new tail.length tail := by
  induction seg with
  | nil => rfl
  | cons c cs ih =>
    have hcs : ¬ idPlaceholder <:+: cs := fun h => hseg (List.infix_cons h)
    have hp := idPlaceholder_no_match (c :: cs) tail (List.cons_ne_nil _ _) hseg htail
    rw [List.cons_append] at hp ⊢
    rw [replaceLoop_cons_no_match _ _ _ _ hp, ih hcs]
    rfl

/-- Joining starts with the first piece. -/
theorem joinWith_cons_append {α : Type} (sep a b : List α) (rest : List (List α)) :
    joinWith sep ((a ++ b) :: rest) = a ++ joinWith sep (b :: rest) := by
  cases rest with
  | nil => rfl
  | cons t rest => simp [joinWith]

/-- Replacement on a template cut into placeholder-free pieces: the pieces
joined by the replacement text. -/
theorem replaceLoop_joinWith (new : Text) (segs : List Text)
    (hsegs : ∀ s ∈ segs, ¬ idPlaceholder <:+: s) :
    replaceLoop idPlaceholder new (joinWith idPlaceholder segs).length
        (joinWith idPlaceholder segs)
      = joinWith new segs := by
  induction segs with
  | nil => rfl
  | cons s rest ih =>
    cases rest with
    | nil =>
      have h := replaceLoop_piece new s [] (hsegs s (List.mem_cons_self _ _)) (Or.inl rfl)
      simpa [joinWith, replaceLoop] using h
    | cons t rest =>
      have hs := hsegs s (List.mem_cons_self _ _)
      have hrest : ∀ x ∈ t :: rest, ¬ idPlaceholder <:+: x :=
        fun x hx => hsegs x (List.mem_cons_of_mem _ hx)
      have h := replaceLoop_piece new s (idPlaceholder ++ joinWith idPlaceholder (t :: rest)) hs
        (Or.inr ⟨_, rfl⟩)
      simp only [joinWith, List.append_assoc]
      rw [h, replaceLoop_append_match idPlaceholder new (by decide), ih hrest]

/-- Every text is placeholder-free pieces joined by placeholders. -/
theorem exists_pieces (u : Text) :
    ∃ segs : List Text, segs ≠ [] ∧ (∀ s ∈ segs, ¬ idPlaceholder <:+: s)
      ∧ u = joinWith idPlaceholder segs := by
  induction u with
  | nil =>
    refine ⟨[[]], by simp, ?_, rfl⟩
    intro s hs
    rw [List.mem_singleton] at hs
    subst hs
    decide
  | cons c cs ih =>
    obtain ⟨segs, hne, hfree, hjoin⟩ := ih
    cases segs with
    | nil => exact absurd rfl hne
    | cons s0 rest =>
      have hs0 : ¬ idPlaceholder <:+: s0 := hfree s0 (List.mem_cons_self _ _)
      have hrest : ∀ x ∈ rest, ¬ idPlaceholder <:+: x :=
        fun x hx => hfree x (List.mem_cons_of_mem _ hx)
      by_cases hin : idPlaceholder <:+: c :: s0
      · rcases List.infix_cons_iff.1 hin with hpre | hinf
        · obtain ⟨s1, hs1⟩ := hpre
          have hsuf : s1 <:+ s0 := by
            have h2 : s1 <:+ c :: s0 := ⟨idPlaceholder, hs1⟩
            rcases List.suffix_cons_iff.1 h2 with heq | h3
            · exfalso
              have hl := congrArg List.length hs1
              rw [heq] at hl
              simp [idPlaceholder] at hl
              omega
            · exact h3
          have hs1free : ¬ idPlaceholder <:+: s1 :=
            fun h => hs0 (h.trans hsuf.isInfix)
          refine ⟨[] :: s1 :: rest, by simp, ?_, ?_⟩
          · intro x hx
            rcases List.mem_cons.1 hx with rfl | hx
            · decide
            · rcases List.mem_cons.1 hx with rfl | hx
              · exact hs1free
              · exact hrest x hx
          · have h1 : c :: cs = joinWith idPlaceholder ((c :: s0) :: rest) := by
              rw [hjoin]
              exact (joinWith_cons_append idPlaceholder [c] s0 rest).symm
            rw [h1, ← hs1, joinWith_cons_append]
            simp [joinWith]
        · exact absurd hinf hs0
      · refine ⟨(c :: s0) :: rest, by simp, ?_, ?_⟩
        · intro x hx
          rcases List.mem_cons.1 hx with rfl | hx
          · exact hin
          · exact hrest x hx
        · rw [hjoin]
          exact (joinWith_cons_append idPlaceholder [c] s0 rest).symm

/-! ## Token URI: the method -/

/-- The rendering of token id 255: 62 zeros followed by `ff`. -/
theorem sprintf064x_255 : sprintf064x 255 = List.replicate 62 '0' ++ ['f', 'f'] := by
  have hd : Nat.digits 16 255 = [15, 15] := by norm_num
  have hu : utoa16 255 = ['f', 'f'] := by
    unfold utoa16
    rw [hd]
    decide
  rw [sprintf064x_nonneg 255 (by decide) (by norm_num)]
  have hn : (255 : Int).natAbs = 255 := rfl
  rw [hn, hu]
  rfl

/-- With the placeholder as `old` and a 64-character `new`, `strings.Replace`
is the scanning loop. -/
theorem stringsReplaceAll_idPlaceholder (u new : Text) (hnew : new.length = 64) :
    stringsReplaceAll u idPlaceholder new = replaceLoop idPlaceholder new u.length u := by
  have h1 : idPlaceholder ≠ new := by
    intro h
    have hl := congrArg List.length h
    rw [hnew] at hl
    simp [idPlaceholder] at hl
  have h2 : idPlaceholder ≠ [] := by decide
  simp [stringsReplaceAll, h1, h2]

/-- The result of `Erc721TokenUri` once encoding and decoding succeed. -/
theorem Erc721TokenUri_ok (o : Opera) (contract : Address) (t : Int) (input : Bytes) (u : Text)
    (hp : o.PackTokenURI t = (input, none))
    (hu : o.UnpackTokenURI (o.CallContract (tokenUriMsg contract input)).1 = Except.ok u) :
    (o.Erc721TokenUri contract t).1
      = (stringsReplaceAll u idPlaceholder (sprintf064x t), none) := by
  unfold Opera.Erc721TokenUri
  rw [hp]
  dsimp only
  rw [hu]

/-- C6: for a token id `t` in `[0, 2^256)` the rendering `%064x` is exactly 64
characters, each a lower-case hexadecimal digit, and denotes `t` in base 16
(zero-padded on the left).  For every raw URI `u` decoded from the contract's
response, `Erc721TokenUri` returns `u` with the placeholder replaced: `u` is, in
some way, pieces free of the placeholder joined by placeholders, and for every
such cutting of `u` the result is the same pieces joined by the rendering, with
a nil error.  For `t = 255` the rendering is 62 zeros followed by `ff`. -/
theorem Erc721TokenUri_template (o : Opera) (contract : Address) (t : Int)
    (h0 : 0 ≤ t) (h1 : t < 2 ^ 256) :
    (sprintf064x t).length = 64
    ∧ (∀ c ∈ sprintf064x t, c ∈ lowerHexDigits)
    ∧ (hexValue (sprintf064x t) : Int) = t
    ∧ (∀ (input : Bytes) (u : Text), o.PackTokenURI t = (input, none) →
        o.UnpackTokenURI (o.CallContract (tokenUriMsg contract input)).1 = Except.ok u →
        (∃ segs : List Text, segs ≠ [] ∧ (∀ s ∈ segs, ¬ idPlaceholder <:+: s)
            ∧ u = joinWith idPlaceholder segs)
        ∧ (∀ segs : List Text, (∀ s ∈ segs, ¬ idPlaceholder <:+: s) →
            u = joinWith idPlaceholder segs →
            (o.Erc721TokenUri contract t).1 = (joinWith (sprintf064x t) segs, none)))
    ∧ sprintf064x 255 = List.replicate 62 '0' ++ ['f', 'f'] := by
  have hn : t.natAbs < 16 ^ 64 := by
    have : (t.natAbs : Int) < 2 ^ 256 := by
      rw [Int.natAbs_of_nonneg h0]
      exact h1
    have h2 : (16 : Nat) ^ 64 = 2 ^ 256 := by norm_num
    rw [h2]
    exact_mod_cast this
  have hlen := utoa16_length t.natAbs hn
  have hrender := sprintf064x_nonneg t h0 h1
  have h64 : (sprintf064x t).length = 64 := by
    rw [hrender, List.length_append, List.length_replicate]
    omega
  refine ⟨h64, ?_, ?_, ?_, sprintf064x_255⟩
  · intro c hc
    rw [hrender, List.mem_append] at hc
    rcases hc with hc | hc
    · rw [List.eq_of_mem_replicate hc]
      decide
    · exact utoa16_mem _ c hc
  · rw [hrender, hexValue_zeros_append, hexValue_utoa16]
    exact Int.natAbs_of_nonneg h0
  · intro input u hp hu
    refine ⟨exists_pieces u, ?_⟩
    intro segs hfree hjoin
    rw [Erc721TokenUri_ok o contract t input u hp hu,
      stringsReplaceAll_idPlaceholder u _ h64, hjoin, replaceLoop_joinWith _ segs hfree]

/-- C6 at token id 255 and the template `u/` placeholder `.j`: the result is
`u/`, the rendering of 255, `.j`, with a nil error. -/
theorem Erc721TokenUri_template_witness :
    (templateOpera.Erc721TokenUri (Address.fill 7) 255).1
      = (['u', '/'] ++ (List.replicate 62 '0' ++ ['f', 'f']) ++ ['.', 'j'], none) := by
  have h := ((Erc721TokenUri_template templateOpera (Address.fill 7) 255 (by decide)
    (by norm_num)).2.2.2.1 [] (['u', '/'] ++ idPlaceholder ++ ['.', 'j']) rfl rfl).2
      [['u', '/'], ['.', 'j']] (by decide) rfl
  rw [h, sprintf064x_255]
  rfl

/-- The error half of the contract call's result has no influence on
`Erc721TokenUri`: with any other error half, the result and the calls are the same. -/
theorem Erc721TokenUri_error_half_unused (o : Opera) (contract : Address) (t : Int)
    (errOf : CallMsg → Option GoError) :
    Opera.Erc721TokenUri { o with CallContract := fun m => ((o.CallContract m).1, errOf m) }
        contract t
      = o.Erc721TokenUri contract t := by
  unfold Opera.Erc721TokenUri
  rcases o.PackTokenURI t with ⟨input, _ | e⟩ <;> rfl

/-- The calls `Erc721TokenUri` makes: the encoder alone when it fails; otherwise
the encoder, one contract call with the encoded input, and the decoder on the
payload of that call. -/
theorem Erc721TokenUri_calls (o : Opera) (contract : Address) (t : Int) :
    (o.Erc721TokenUri contract t).2 =
      match (o.PackTokenURI t).2 with
      | some _ => [Event.PackTokenURI t]
      | none =>
        [Event.PackTokenURI t,
          Event.CallContract (tokenUriMsg contract (o.PackTokenURI t).1),
          Event.UnpackTokenURI (o.CallContract (tokenUriMsg contract (o.PackTokenURI t).1)).1] := by
  unfold Opera.Erc721TokenUri
  rcases o.PackTokenURI t with ⟨input, _ | e⟩
  · dsimp only
    split <;> rfl
  · rfl

/-- C7: on a node client that answers a call with bytes or with an error (a
non-nil error comes with a nil payload) and with a decoder that rejects an
empty payload, whenever the contract call made by `Erc721TokenUri` returns an
error, `Erc721TokenUri` returns the empty string and a non-nil error, never a
URI.  The error of the call itself is not read: the error returned is the
decoder's on the nil payload. -/
theorem Erc721TokenUri_call_error_propagates (o : Opera) (contract : Address) (t : Int)
    (hnode : o.bytesOrError) (hdec : o.rejectsEmptyPayload)
    (msg : CallMsg) (hmade : Event.CallContract msg ∈ (o.Erc721TokenUri contract t).2)
    (herr : (o.CallContract msg).2 ≠ none) :
    (o.Erc721TokenUri contract t).1.1 = []
    ∧ (o.Erc721TokenUri contract t).1.2 ≠ none
    ∧ (∀ e, o.UnpackTokenURI [] = Except.error e →
        (o.Erc721TokenUri contract t).1 = ([], some e)) := by
  rw [Erc721TokenUri_calls] at hmade
  obtain ⟨e0, he0⟩ := hdec
  cases hp : (o.PackTokenURI t).2 with
  | some e =>
    rw [hp] at hmade
    simp at hmade
  | none =>
    rw [hp] at hmade
    simp at hmade
    subst hmade
    have hdata := hnode _ herr
    have hpack : o.PackTokenURI t = ((o.PackTokenURI t).1, none) := by
      rw [← hp]
    have hres : (o.Erc721TokenUri contract t).1 = ([], some e0) := by
      unfold Opera.Erc721TokenUri
      rw [hpack]
      dsimp only
      rw [hdata, he0]
    refine ⟨by rw [hres], by rw [hres]; simp, ?_⟩
    intro e he
    rw [he0] at he
    cases he
    exact hres

/-- C7 at a node whose contract call fails with `connection reset`: the caller
gets the empty string and a non-nil error. -/
theorem Erc721TokenUri_call_error_propagates_witness :
    (resetOpera.Erc721TokenUri (Address.fill 7) 255).1.1 = []
    ∧ (resetOpera.Erc721TokenUri (Address.fill 7) 255).1.2 ≠ none :=
  have h := Erc721TokenUri_call_error_propagates resetOpera (Address.fill 7) 255
    (fun _ _ => rfl) ⟨_, rfl⟩ (tokenUriMsg (Address.fill 7) [])
    (List.mem_cons_of_mem _ (List.mem_cons_self _ _)) (by simp [resetOpera])
  ⟨h.1, h.2.1⟩

end Siren
